import Mathlib

/-!
Verification of the training-loop orchestrator in homura/utils/trainer.py.

The development shallowly embeds the two classes of the file, `TrainerBase`
and `SupervisedTrainer`, as pure Lean functions:

* tensors carry an integer payload; `.data`, `.item()` and `.cpu()` are the
  source's value-preserving accessors;
* Python dicts (callback contexts and the registered-extras registries) are
  association lists with overwrite-on-set semantics, so `d.update(e)` lets the
  entries of `e` win over those of `d`;
* the callback dispatcher is observed through the trace of events a call
  emits (`start_iteration`, `end_iteration`, `start_epoch`, `end_epoch`,
  `end_all`, `close`), plus the engine operations `zero_grad`, `backward`,
  `step` issued by `SupervisedTrainer.iteration`;
* fallible construction (`TrainerBase.__init__`) returns `Except PyError`;
* an external cancellation (KeyboardInterrupt) during `run` is modelled as
  cutting the event trace of the protected block at an arbitrary prefix.
-/

namespace Homura

/-- A tensor, reduced to the scalar payload the claims observe. -/
structure Tensor where
  val : Int
deriving DecidableEq, Repr

/-- Mirrors `t.data` (detaching from the autograd graph): value unchanged. -/
def Tensor.data (t : Tensor) : Tensor := t

/-- Mirrors `t.item()`: extract the scalar. -/
def Tensor.item (t : Tensor) : Int := t.val

/-- Mirrors `t.cpu()`: device transfer preserves the value. -/
def Tensor.cpu (t : Tensor) : Tensor := t

/-- A batch, as unpacked by `SupervisedTrainer.iteration`: (input, target). -/
abbrev Batch := Tensor × Tensor

/-- Context keys imported at line 7 from `homura/utils/_vocabulary.py`.
Modelled from the spec: that module is not among the reviewed sources; the
spec fixes these distinct semantic tags for context payloads. -/
def MODEL : String := "model"

def STEP : String := "step"

def NAME : String := "name"

def TRAINER : String := "trainer"

def OUTPUT : String := "output"

def DATA : String := "data"

def LOSS : String := "loss"

def OPTIMIZER : String := "optimizer"

def EPOCH : String := "epoch"

def ITER_PER_EPOCH : String := "iter_per_epoch"

def TRAIN : String := "train"

def TEST : String := "test"

/-- Values stored in a callback context dictionary. -/
inductive Val where
  | s (x : String)
  | i (x : Int)
  | n (x : Nat)
  | tens (t : Tensor)
  | batch (b : Batch)
  | modelRef (version : Nat)
  | optimRef
  | trainerRef
deriving DecidableEq, Repr

/-- A Python dict of context entries, as an association list. Only lookup is
observed by the claims, so insertion order is not tracked. -/
abbrev Ctx := List (String × Val)

/-- Dict lookup. -/
def ctxGet : Ctx → String → Option Val
  | [], _ => none
  | (k', v) :: rest, k => if k' = k then some v else ctxGet rest k

/-- Dict store `d[k] = v`: the new binding wins, any old binding for `k` is
dropped. -/
def ctxSet (c : Ctx) (k : String) (v : Val) : Ctx :=
  (k, v) :: c.filter (fun p => !(p.1 == k))

/-- Dict update `c.update(d)`: every entry of `d` is stored into `c`, so on a
common key the entry of `d` wins. -/
def ctxUpdate (c d : Ctx) : Ctx :=
  d.foldl (fun a p => ctxSet a p.1 p.2) c

/-- Operations `SupervisedTrainer.iteration` issues to the autograd engine
(lines 243-245), in program order. -/
inductive EngineOp where
  | zeroGrad
  | backward (lossValue : Int)
  | optStep
deriving DecidableEq, Repr

/-- Observable events of one trainer execution: the five callback dispatch
points with their context, the engine operations, the dispatcher teardown
`close()` (line 205), and the notice printed on interruption (line 203). -/
inductive Event where
  | startIteration (c : Ctx)
  | endIteration (c : Ctx)
  | startEpoch (c : Ctx)
  | endEpoch (c : Ctx)
  | endAll (c : Ctx)
  | engine (op : EngineOp)
  | close
  | notice
deriving DecidableEq, Repr

/-- Result of one `SupervisedTrainer.iteration` call: the loss and output it
returns, the parameter state after it (abstract version counter; an optimizer
step advances it), and the engine operations it issued. -/
structure IterResult where
  loss : Tensor
  output : Tensor
  newVersion : Nat
  engineOps : List EngineOp

/-- Mirrors `SupervisedTrainer.iteration` (lines 238-246): unpack the batch,
move it to the device (value-preserving), run the model forward, compute the
loss; in training mode additionally `zero_grad()`, `backward()` and one
optimizer `step()`, in that order. Returns (loss, output) in both modes. -/
def SupervisedTrainer.iteration (fwd : Nat → Tensor → Tensor)
    (loss_f : Tensor → Tensor → Tensor) (version : Nat) (is_train : Bool)
    (data : Batch) : IterResult :=
  let input := data.1
  let target := data.2
  let output := fwd version input
  let loss := loss_f output target
  if is_train then
    { loss := loss, output := output, newVersion := version + 1,
      engineOps := [EngineOp.zeroGrad, EngineOp.backward loss.item,
                    EngineOp.optStep] }
  else
    { loss := loss, output := output, newVersion := version, engineOps := [] }

/-- Runtime state of a (supervised, single-model) trainer: the counters
`_step` and `_epoch`, the `_is_train` flag, the model's train/eval mode, the
abstract parameter version, the scheduler step count (if a scheduler is set),
the model forward and the loss function, and the five registered-extras
registries (lines 105-109). -/
structure TState where
  step : Nat
  epoch : Nat
  is_train : Bool
  modelMode : Bool
  version : Nat
  sched : Option Nat
  fwd : Nat → Tensor → Tensor
  loss_f : Tensor → Tensor → Tensor
  start_iteration : Ctx
  end_iteration : Ctx
  start_epoch : Ctx
  end_epoch : Ctx
  end_all : Ctx

/-- Mirrors `register_start_iteration` (lines 120-121). -/
def Trainer.register_start_iteration (st : TState) (name : String) (v : Val) : TState :=
  { st with start_iteration := ctxSet st.start_iteration name v }

/-- Mirrors `register_end_iteration` (lines 123-124). -/
def Trainer.register_end_iteration (st : TState) (name : String) (v : Val) : TState :=
  { st with end_iteration := ctxSet st.end_iteration name v }

/-- Mirrors `register_start_epoch` (lines 126-127). -/
def Trainer.register_start_epoch (st : TState) (name : String) (v : Val) : TState :=
  { st with start_epoch := ctxSet st.start_epoch name v }

/-- Mirrors `register_end_epoch` (lines 129-130). -/
def Trainer.register_end_epoch (st : TState) (name : String) (v : Val) : TState :=
  { st with end_epoch := ctxSet st.end_epoch name v }

/-- Mirrors `register_end_all` (lines 132-133). -/
def Trainer.register_end_all (st : TState) (name : String) (v : Val) : TState :=
  { st with end_all := ctxSet st.end_all name v }

/-- The context dispatched by `_iteration` before the iteration (lines
137-141): fixed keys first, then the registered extras merged over them. -/
def startIterationCtx (st : TState) (name : String) : Ctx :=
  ctxUpdate [(MODEL, Val.modelRef st.version), (STEP, Val.n st.step),
             (NAME, Val.s name), (TRAINER, Val.trainerRef)]
    st.start_iteration

/-- The context dispatched by `_iteration` after the iteration (lines
145-152): detached output, input batch, model, scalar loss `loss.data.item()`,
the (pre-increment) step, the phase name and the trainer, then the registered
extras merged over them. -/
def endIterationCtx (st : TState) (data : Batch) (name : String) : Ctx :=
  let r := SupervisedTrainer.iteration st.fwd st.loss_f st.version st.is_train data
  ctxUpdate [(OUTPUT, Val.tens r.output.cpu), (DATA, Val.batch data),
             (MODEL, Val.modelRef r.newVersion), (LOSS, Val.i r.loss.data.item),
             (STEP, Val.n st.step), (NAME, Val.s name),
             (TRAINER, Val.trainerRef)]
    st.end_iteration

/-- The context dispatched at the start of `_loop` (lines 157-160). -/
def startEpochCtx (st : TState) (name : String) : Ctx :=
  ctxUpdate [(MODEL, Val.modelRef st.version), (NAME, Val.s name),
             (TRAINER, Val.trainerRef)]
    st.start_epoch

/-- The context dispatched at the end of `_loop` (lines 171-177); `len`
is `len(data_loader)` (the progress wrapper preserves length). -/
def endEpochCtx (st : TState) (len : Nat) (name : String) : Ctx :=
  ctxUpdate [(MODEL, Val.modelRef st.version), (OPTIMIZER, Val.optimRef),
             (EPOCH, Val.n st.epoch), (NAME, Val.s name),
             (ITER_PER_EPOCH, Val.n len), (TRAINER, Val.trainerRef)]
    st.end_epoch

/-- The context dispatched by `_exit` (lines 209-212). -/
def endAllCtx (st : TState) : Ctx :=
  ctxUpdate [(MODEL, Val.modelRef st.version), (OPTIMIZER, Val.optimRef),
             (TRAINER, Val.trainerRef)]
    st.end_all

/-- Mirrors `TrainerBase._iteration` (lines 135-153), with the concrete
`SupervisedTrainer.iteration` supplying the abstract operation: dispatch
start-of-iteration, run the iteration (engine operations appear in the
trace), dispatch end-of-iteration. -/
def Trainer.iterationCall (st : TState) (data : Batch) (name : String) :
    TState × List Event :=
  let c1 := startIterationCtx st name
  let r := SupervisedTrainer.iteration st.fwd st.loss_f st.version st.is_train data
  let c2 := endIterationCtx st data name
  ({ st with version := r.newVersion },
   Event.startIteration c1 :: (r.engineOps.map Event.engine ++ [Event.endIteration c2]))

/-- The per-batch body of `_loop` (lines 165-168): run `_iteration`, then
increment `_step` when (and only when) `is_train` holds. -/
def Trainer.loopGo (st : TState) (dl : List Batch) (name : String) :
    TState × List Event :=
  match dl with
  | [] => (st, [])
  | d :: rest =>
    let p := Trainer.iterationCall st d name
    let st2 := if p.1.is_train then { p.1 with step := p.1.step + 1 } else p.1
    let q := Trainer.loopGo st2 rest name
    (q.1, p.2 ++ q.2)

/-- Mirrors `TrainerBase._loop` (lines 155-178): start-of-epoch dispatch,
the per-batch loop, end-of-epoch dispatch. -/
def Trainer.loop (st : TState) (dl : List Batch) (name : String) :
    TState × List Event :=
  let c0 := startEpochCtx st name
  let p := Trainer.loopGo st dl name
  let c2 := endEpochCtx p.1 dl.length name
  (p.1, Event.startEpoch c0 :: (p.2 ++ [Event.endEpoch c2]))

/-- Mirrors `TrainerBase.train` (lines 180-187): set training mode, run the
loop under the name "train", advance the scheduler if one is set, increment
the epoch counter. -/
def Trainer.train (st : TState) (dl : List Batch) : TState × List Event :=
  let st0 := { st with is_train := true, modelMode := true }
  let p := Trainer.loop st0 dl TRAIN
  let st2 := match p.1.sched with
    | none => p.1
    | some n => { p.1 with sched := some (n + 1) }
  ({ st2 with epoch := st2.epoch + 1 }, p.2)

/-- Mirrors `TrainerBase.test` (lines 189-193): set evaluation mode and run
the loop under the given name; counters are not touched. -/
def Trainer.test (st : TState) (dl : List Batch) (name : String) :
    TState × List Event :=
  let st0 := { st with is_train := false, modelMode := false }
  Trainer.loop st0 dl name

/-- Mirrors `TrainerBase._exit` (lines 207-213): dispatch the end-of-run
event. -/
def Trainer.exitCall (st : TState) : List Event :=
  [Event.endAll (endAllCtx st)]

/-- The epoch loop of `run` (lines 197-199): `epochs` rounds of
`train(train_data)` followed by `test(test_data)`. -/
def Trainer.epochsLoop (st : TState) (epochs : Nat) (tr te : List Batch) :
    TState × List Event :=
  match epochs with
  | 0 => (st, [])
  | n + 1 =>
    let p := Trainer.train st tr
    let q := Trainer.test p.1 te TEST
    let rest := Trainer.epochsLoop q.1 n tr te
    (rest.1, p.2 ++ q.2 ++ rest.2)

/-- How one execution of `run` terminates: either the protected block runs to
completion, or a KeyboardInterrupt cuts it after its first `k` observable
events. -/
inductive RunOutcome where
  | completed
  | interrupted (k : Nat)

/-- The protected block of `run` (lines 196-200): the epoch loop followed by
`_exit()`. `Except.ok` is normal completion; `Except.error` carries the
events that happened before the KeyboardInterrupt struck. -/
def Trainer.tryBody (st : TState) (epochs : Nat) (tr te : List Batch)
    (oc : RunOutcome) : Except (List Event) (List Event) :=
  let p := Trainer.epochsLoop st epochs tr te
  let body := p.2 ++ Trainer.exitCall p.1
  match oc with
  | .completed => .ok body
  | .interrupted k => .error (body.take k)

/-- Mirrors `TrainerBase.run` (lines 195-205): the protected block; a caught
KeyboardInterrupt prints a notice (the `except` clause); the dispatcher's
`close()` runs in `finally` on every path. `run` itself always returns a
plain trace: the interruption is not re-raised to the caller. -/
def Trainer.run (st : TState) (epochs : Nat) (tr te : List Batch)
    (oc : RunOutcome) : List Event :=
  match Trainer.tryBody st epochs tr te oc with
  | .ok evs => evs ++ [Event.close]
  | .error evs => evs ++ [Event.notice, Event.close]

/-- The full event sequence of the protected block of `run` when nothing
interrupts it: the epoch loop followed by the `_exit()` dispatch. -/
def Trainer.bodyEvents (st : TState) (epochs : Nat) (tr te : List Batch) :
    List Event :=
  (Trainer.epochsLoop st epochs tr te).2 ++
    Trainer.exitCall (Trainer.epochsLoop st epochs tr te).1

/-- A subsequent lifecycle call: `train(dl)` or `test(dl, name)`. -/
inductive Op where
  | trainOp (dl : List Batch)
  | testOp (dl : List Batch) (name : String)

/-- Apply a sequence of `train`/`test` calls, concatenating their traces. -/
def Trainer.applyOps (st : TState) : List Op → TState × List Event
  | [] => (st, [])
  | op :: rest =>
    let p := match op with
      | Op.trainOp dl => Trainer.train st dl
      | Op.testOp dl name => Trainer.test st dl name
    let q := Trainer.applyOps p.1 rest
    (q.1, p.2 ++ q.2)

/-- Recognizer for the `close` event. -/
def isClose : Event → Bool
  | Event.close => true
  | _ => false

/-- Recognizer for the `notice` event. -/
def isNotice : Event → Bool
  | Event.notice => true
  | _ => false

/-- Recognizer for an `end_all` dispatch. -/
def isEndAll : Event → Bool
  | Event.endAll _ => true
  | _ => false

/-- Events that the train/test loops can emit: everything except `end_all`,
`close` and `notice`. -/
def isLoopEvent : Event → Bool
  | Event.endAll _ => false
  | Event.close => false
  | Event.notice => false
  | _ => true

/-- Number of `close` events in a trace. -/
def closeCount (l : List Event) : Nat := l.countP isClose

/-- Number of `end_all` dispatches in a trace. -/
def endAllCount (l : List Event) : Nat := l.countP isEndAll

/-- Python exception classes surfaced by construction and by the abstract
method. -/
inductive PyError where
  | typeError (msg : String)
  | keyError (msg : String)
  | attributeError (msg : String)
  | notImplemented (msg : String)
deriving DecidableEq, Repr

/-- An `nn.Module` passed to the constructor (opaque). -/
structure ModelObj where
  id : Nat
deriving DecidableEq, Repr

/-- A concrete torch optimizer, the `.optim` of a bound adapter (opaque). -/
structure OptimObj where
  id : Nat
deriving DecidableEq, Repr

/-- A homura `Optimizer` adapter; `set_model` binds it and `.optim` yields
the concrete optimizer. -/
structure OptAdapter where
  id : Nat
deriving DecidableEq, Repr

/-- Mirrors `opt.set_model(m); opt.optim`: binding yields the concrete
optimizer object. -/
def OptAdapter.optim (o : OptAdapter) : OptimObj := ⟨o.id⟩

/-- A concrete torch scheduler object (opaque). -/
structure SchedObj where
  id : Nat
deriving DecidableEq, Repr

/-- A homura `Scheduler` adapter; `set_optimizer` binds it and `.scheduler`
yields the concrete scheduler. -/
structure SchedAdapter where
  id : Nat
deriving DecidableEq, Repr

/-- Mirrors `schdlr.set_optimizer(opt); schdlr.scheduler`. -/
def SchedAdapter.scheduler (s : SchedAdapter) : SchedObj := ⟨s.id⟩

/-- The `model` argument of `TrainerBase.__init__`: an `nn.Module`, a dict
of modules, or anything else (the `else` branch of lines 42-44). -/
inductive ModelArg where
  | single (m : ModelObj)
  | keyed (d : List (String × ModelObj))
  | other

/-- Mirrors `isinstance(model, dict)`. -/
def ModelArg.isKeyedArg : ModelArg → Bool
  | .keyed _ => true
  | _ => false

/-- The `optimizer` argument: an `Optimizer` adapter, a dict of adapters, or
anything else (no branch of lines 52-66 handles the last case). -/
inductive OptArg where
  | single (o : OptAdapter)
  | keyed (d : List (String × OptAdapter))
  | other

/-- Mirrors `isinstance(optimizer, dict)`. -/
def OptArg.isKeyedArg : OptArg → Bool
  | .keyed _ => true
  | _ => false

/-- The `scheduler` argument: `None` (the default), an adapter, a dict of
adapters, or anything else (no branch of lines 69-84 handles the last
case). -/
inductive SchedArg where
  | none
  | single (s : SchedAdapter)
  | keyed (d : List (String × SchedAdapter))
  | other

/-- The value of `self.model` after the model branch. -/
inductive MVal where
  | single (m : ModelObj)
  | keyed (d : List (String × ModelObj))

/-- Mirrors `self.model._modules` of the constructed container. -/
def MVal.modules : MVal → List (String × ModelObj)
  | .single _ => []
  | .keyed d => d

/-- The value of `self.optimizer` when that attribute is set. -/
inductive OptVal where
  | single (o : OptimObj)
  | keyed (d : List (String × OptimObj))

/-- The value of `self._scheduler` when that attribute is set (`none` is the
Python `None` stored by line 70). -/
inductive SchedVal where
  | single (s : SchedObj)
  | keyed (d : List (String × SchedObj))

/-- The trainer object a successful `TrainerBase.__init__` produces. The
`optimizer` and `schedulerAttr` fields are `Option`s whose `none` means the
attribute was never assigned (the missing `else` branches). -/
structure TrainerObj where
  device : String
  model : MVal
  isSingleModel : Bool
  optimizer : Option OptVal
  schedulerAttr : Option (Option SchedVal)
  loss_f : Nat
  callbacks : Nat
  step : Nat
  epoch : Nat
  verb : Bool
  is_train : Bool
  extraAttrs : List (String × Nat)

/-- Line 40 constructs `nn.ModuleDict(dict)`: the argument written in the
source is the builtin class `dict` itself, not the model mapping, and
torch's `ModuleDict.update` rejects a non-iterable argument with a
TypeError. -/
def moduleDictOfDictClass : Except PyError MVal :=
  .error (.typeError
    "ModuleDict.update should be called with an iterable of key-value pairs, but got type")

/-- The model branch of `__init__` (lines 36-44). -/
def initModelStep : ModelArg → Except PyError (MVal × Bool)
  | .single m => .ok (.single m, true)
  | .keyed _ =>
    match moduleDictOfDictClass with
    | .error e => .error e
    | .ok mv => .ok (mv, false)
  | .other =>
    .error (.typeError "Unknown type for arg. model. Expected nn.Module or Dict of Modules")

/-- The loop of lines 60-65: for each optimizer key, look the key up in
`self.model._modules`; a missing key is a KeyError, otherwise bind the
adapter and keep its `.optim`. -/
def bindOptimizers (mods : List (String × ModelObj)) :
    List (String × OptAdapter) → Except PyError (List (String × OptimObj))
  | [] => .ok []
  | (k, o) :: rest =>
    match mods.lookup k with
    | none => .error (.keyError ("No such key " ++ k ++ " in model"))
    | some _ =>
      match bindOptimizers mods rest with
      | .error e => .error e
      | .ok tail => .ok ((k, o.optim) :: tail)

/-- The optimizer branch of `__init__` (lines 52-66). An argument that is
neither an `Optimizer` nor a dict matches no branch: no error, and
`self.optimizer` stays unset. -/
def initOptStep (modelArg : ModelArg) (optimizer : OptArg) (mv : MVal) :
    Except PyError (Option OptVal) :=
  match optimizer with
  | .single o => .ok (some (.single o.optim))
  | .keyed od =>
    if modelArg.isKeyedArg then
      match bindOptimizers mv.modules od with
      | .error e => .error e
      | .ok l => .ok (some (.keyed l))
    else .error (.typeError "model is not dict but optimizer is dict")
  | .other => .ok none

/-- The loop of lines 78-83: for each scheduler key, `self.optimizer.get(k)`
(an AttributeError when `self.optimizer` is unset or not a dict); a missing
key is a KeyError, otherwise bind and keep the concrete scheduler. -/
def bindSchedulers (optv : Option OptVal) :
    List (String × SchedAdapter) → Except PyError (List (String × SchedObj))
  | [] => .ok []
  | (k, s) :: rest =>
    match optv with
    | none => .error (.attributeError "TrainerBase object has no attribute optimizer")
    | some (.single _) => .error (.attributeError "optimizer object has no attribute get")
    | some (.keyed l) =>
      match l.lookup k with
      | none => .error (.keyError ("No such key " ++ k ++ " in optimizer"))
      | some _ =>
        match bindSchedulers optv rest with
        | .error e => .error e
        | .ok tail => .ok ((k, s.scheduler) :: tail)

/-- The scheduler branch of `__init__` (lines 68-84). A single scheduler
reads `self.optimizer` (AttributeError when unset); a dict scheduler first
requires the optimizer argument to be a dict. An argument matching no
branch leaves `self._scheduler` unset. -/
def initSchedStep (optimizerArg : OptArg) (scheduler : SchedArg)
    (optv : Option OptVal) : Except PyError (Option (Option SchedVal)) :=
  match scheduler with
  | .none => .ok (some Option.none)
  | .single s =>
    match optv with
    | Option.none => .error (.attributeError "TrainerBase object has no attribute optimizer")
    | some _ => .ok (some (some (.single s.scheduler)))
  | .keyed sd =>
    if optimizerArg.isKeyedArg then
      match bindSchedulers optv sd with
      | .error e => .error e
      | .ok l => .ok (some (some (.keyed l)))
    else .error (.typeError "optimizer is not dict but scheduler is dict")
  | .other => .ok Option.none

/-- Attribute names `hasattr(self, k)` finds from the class itself when the
kwargs loop of lines 100-103 runs. -/
def classMethodAttrs : List String :=
  ["iteration", "register_start_iteration", "register_end_iteration",
   "register_start_epoch", "register_end_epoch", "register_end_all",
   "_iteration", "_loop", "train", "test", "run", "_exit", "is_train",
   "to_device"]

/-- Instance attributes present when the kwargs loop runs: everything
assigned by lines 33-97, where `optimizer` and `_scheduler` exist only when
their branch actually assigned them. -/
def baseAttrs (optSet schedSet : Bool) : List String :=
  classMethodAttrs ++ ["_device", "model", "_is_single_model"]
    ++ (if optSet then ["optimizer"] else [])
    ++ (if schedSet then ["_scheduler"] else [])
    ++ ["loss_f", "_callbacks", "_step", "_epoch", "_verb", "_is_train"]

/-- The kwargs loop (lines 100-103): a key that is already an attribute is
an AttributeError; otherwise it becomes a new attribute, visible to the
collision check for the following keys. -/
def processKwargs (attrs : List String) :
    List (String × Nat) → Except PyError (List (String × Nat))
  | [] => .ok []
  | (k, v) :: rest =>
    if attrs.contains k then
      .error (.attributeError ("TrainerBase already has " ++ k))
    else
      match processKwargs (attrs ++ [k]) rest with
      | .error e => .error e
      | .ok tail => .ok ((k, v) :: tail)

/-- Mirrors `TrainerBase.__init__` (lines 16-109): device selection, the
model / optimizer / scheduler branches in order, storing `loss_f` and the
callbacks, the counters, and the kwargs loop. -/
def TrainerBase.init (model : ModelArg) (optimizer : OptArg) (loss_f : Nat)
    (callbacks : Nat) (scheduler : SchedArg) (verb : Bool) (cuda : Bool)
    (kwargs : List (String × Nat)) : Except PyError TrainerObj :=
  match initModelStep model with
  | .error e => .error e
  | .ok ms =>
    match initOptStep model optimizer ms.1 with
    | .error e => .error e
    | .ok optV =>
      match initSchedStep optimizer scheduler optV with
      | .error e => .error e
      | .ok schedV =>
        match processKwargs (baseAttrs optV.isSome schedV.isSome) kwargs with
        | .error e => .error e
        | .ok extras =>
          .ok { device := if cuda then "cuda" else "cpu",
                model := ms.1, isSingleModel := ms.2,
                optimizer := optV, schedulerAttr := schedV,
                loss_f := loss_f, callbacks := callbacks,
                step := 0, epoch := 0, verb := verb, is_train := true,
                extraAttrs := extras }

/-- Mirrors `SupervisedTrainer.__init__` (lines 230-236): a dict model is
rejected with a TypeError before delegating to the base constructor. -/
def SupervisedTrainer.init (model : ModelArg) (optimizer : OptArg)
    (loss_f : Nat) (callbacks : Nat) (scheduler : SchedArg) (verb : Bool)
    (cuda : Bool) (kwargs : List (String × Nat)) : Except PyError TrainerObj :=
  match model with
  | .keyed _ => .error (.typeError "SupervisedTrainer does not support dict model")
  | m => TrainerBase.init m optimizer loss_f callbacks scheduler verb cuda kwargs

/-- The body of the abstract method `TrainerBase.iteration` (lines 111-118):
it consists of a docstring only, so a direct invocation returns None and
raises nothing. -/
def TrainerBase.iterationBody (_data : Batch) :
    Except PyError (Option (Tensor × Tensor)) := .ok none

/-- Modelled from the spec: Python's abstract-class machinery (`ABCMeta`,
external to the reviewed sources) rejects instantiation of a class with an
unoverridden abstract method, raising a TypeError. -/
def abcInstantiateCheck (overridesIteration : Bool) : Except PyError Unit :=
  if overridesIteration then .ok ()
  else .error (.typeError
    "Cannot instantiate abstract class TrainerBase with abstract method iteration")

/-- Recognizer for a NotImplementedError outcome. -/
def isNotImplementedFailure {α : Type} : Except PyError α → Bool
  | .error (.notImplemented _) => true
  | _ => false

/-- Sample module for concrete instantiations. -/
def sampleModel : ModelObj := ⟨0⟩

/-- Sample optimizer adapter for concrete instantiations. -/
def sampleOpt : OptAdapter := ⟨0⟩

/-- Sample scheduler adapter for concrete instantiations. -/
def sampleSched : SchedAdapter := ⟨0⟩

/-- Sample batch for concrete instantiations. -/
def sampleBatch : Batch := (⟨1⟩, ⟨2⟩)

/-- Sample runtime trainer state for concrete instantiations: fresh counters,
empty registries, identity forward, difference loss. -/
def sampleState : TState :=
  { step := 0, epoch := 0, is_train := true, modelMode := true, version := 0,
    sched := Option.none, fwd := fun _ t => t,
    loss_f := fun o t => ⟨o.val - t.val⟩,
    start_iteration := [], end_iteration := [], start_epoch := [],
    end_epoch := [], end_all := [] }

/-! Dictionary lemmas: lookup after store and after update. -/

theorem ctxGet_cons_self (k : String) (v : Val) (c : Ctx) :
    ctxGet ((k, v) :: c) k = some v := by
  simp [ctxGet]

theorem ctxGet_cons_ne {k' k : String} (h : k' ≠ k) (v : Val) (c : Ctx) :
    ctxGet ((k', v) :: c) k = ctxGet c k := by
  simp [ctxGet, h]

theorem ctxGet_filter_ne {k' k : String} (h : k' ≠ k) (c : Ctx) :
    ctxGet (c.filter (fun p => !(p.1 == k'))) k = ctxGet c k := by
  induction c with
  | nil => rfl
  | cons p rest ih =>
    obtain ⟨pk, pv⟩ := p
    by_cases hpk : pk = k'
    · subst hpk
      rw [List.filter_cons]
      simp only [beq_self_eq_true, Bool.not_true, if_neg Bool.false_ne_true]
      rw [ih, ctxGet_cons_ne h]
    · have hcond : (!(pk == k')) = true := by simp [hpk]
      rw [List.filter_cons, if_pos hcond]
      by_cases hk : pk = k
      · subst hk
        rw [ctxGet_cons_self, ctxGet_cons_self]
      · rw [ctxGet_cons_ne hk, ctxGet_cons_ne hk, ih]

theorem ctxGet_set_self (c : Ctx) (k : String) (v : Val) :
    ctxGet (ctxSet c k v) k = some v := by
  simp [ctxSet, ctxGet]

theorem ctxGet_set_ne {k' k : String} (h : k' ≠ k) (c : Ctx) (v : Val) :
    ctxGet (ctxSet c k' v) k = ctxGet c k := by
  rw [ctxSet, ctxGet_cons_ne h, ctxGet_filter_ne h]

theorem ctxUpdate_cons (c : Ctx) (p : String × Val) (d : Ctx) :
    ctxUpdate c (p :: d) = ctxUpdate (ctxSet c p.1 p.2) d := rfl

theorem ctxGet_update_of_keys_ne {d : Ctx} {k : String}
    (h : ∀ p ∈ d, p.1 ≠ k) (c : Ctx) :
    ctxGet (ctxUpdate c d) k = ctxGet c k := by
  induction d generalizing c with
  | nil => rfl
  | cons p rest ih =>
    rw [ctxUpdate_cons, ih (fun q hq => h q (List.mem_cons_of_mem _ hq)),
      ctxGet_set_ne (h p (List.mem_cons_self _ _))]

theorem ctxGet_update_set (c r : Ctx) (k : String) (v : Val) :
    ctxGet (ctxUpdate c (ctxSet r k v)) k = some v := by
  have hmem : ∀ p ∈ r.filter (fun p => !(p.1 == k)), p.1 ≠ k := by
    intro p hp
    have := List.of_mem_filter hp
    simpa using this
  have hshape : ctxUpdate c (ctxSet r k v) =
      ctxUpdate (ctxSet c k v) (r.filter (fun p => !(p.1 == k))) := rfl
  rw [hshape, ctxGet_update_of_keys_ne hmem, ctxGet_set_self]

theorem ctxGet_none_keys {d : Ctx} {k : String} (h : ctxGet d k = none) :
    ∀ p ∈ d, p.1 ≠ k := by
  induction d with
  | nil => simp
  | cons p rest ih =>
    obtain ⟨pk, pv⟩ := p
    by_cases hpk : pk = k
    · subst hpk
      rw [ctxGet_cons_self] at h
      exact absurd h (by simp)
    · intro q hq
      rcases List.mem_cons.mp hq with hq | hq
      · subst hq; exact hpk
      · exact ih (by rw [ctxGet_cons_ne hpk] at h; exact h) q hq

theorem ctxGet_update_of_none {d : Ctx} {k : String}
    (h : ctxGet d k = none) (c : Ctx) :
    ctxGet (ctxUpdate c d) k = ctxGet c k :=
  ctxGet_update_of_keys_ne (ctxGet_none_keys h) c

/-! Shape lemmas for the supervised iteration and the loop state. -/

theorem iteration_loss (f : Nat → Tensor → Tensor) (l : Tensor → Tensor → Tensor)
    (v : Nat) (b : Bool) (d : Batch) :
    (SupervisedTrainer.iteration f l v b d).loss = l (f v d.1) d.2 := by
  cases b <;> rfl

theorem iteration_output (f : Nat → Tensor → Tensor) (l : Tensor → Tensor → Tensor)
    (v : Nat) (b : Bool) (d : Batch) :
    (SupervisedTrainer.iteration f l v b d).output = f v d.1 := by
  cases b <;> rfl

theorem iteration_engineOps (f : Nat → Tensor → Tensor) (l : Tensor → Tensor → Tensor)
    (v : Nat) (b : Bool) (d : Batch) :
    (SupervisedTrainer.iteration f l v b d).engineOps =
      (if b = true then
        [EngineOp.zeroGrad, EngineOp.backward (l (f v d.1) d.2).item, EngineOp.optStep]
      else []) := by
  cases b <;> rfl

theorem iterationCall_fst (st : TState) (d : Batch) (nm : String) :
    (Trainer.iterationCall st d nm).1 =
      { st with version :=
          (SupervisedTrainer.iteration st.fwd st.loss_f st.version st.is_train d).newVersion } :=
  rfl

theorem loopGo_cons (st : TState) (d : Batch) (rest : List Batch) (nm : String) :
    Trainer.loopGo st (d :: rest) nm =
      (let p := Trainer.iterationCall st d nm
       let st2 := if p.1.is_train then { p.1 with step := p.1.step + 1 } else p.1
       let q := Trainer.loopGo st2 rest nm
       (q.1, p.2 ++ q.2)) := rfl

theorem loopGo_step (st : TState) (dl : List Batch) (nm : String) :
    (Trainer.loopGo st dl nm).1.step =
      st.step + (if st.is_train then dl.length else 0) := by
  induction dl generalizing st with
  | nil => cases h : st.is_train <;> simp [Trainer.loopGo]
  | cons d rest ih =>
    rw [loopGo_cons]
    cases h : st.is_train <;> simp [iterationCall_fst, h, ih]
    omega

theorem loopGo_epoch (st : TState) (dl : List Batch) (nm : String) :
    (Trainer.loopGo st dl nm).1.epoch = st.epoch := by
  induction dl generalizing st with
  | nil => rfl
  | cons d rest ih =>
    rw [loopGo_cons]
    cases h : st.is_train <;> simp [iterationCall_fst, h, ih]

theorem loopGo_is_train (st : TState) (dl : List Batch) (nm : String) :
    (Trainer.loopGo st dl nm).1.is_train = st.is_train := by
  induction dl generalizing st with
  | nil => rfl
  | cons d rest ih =>
    rw [loopGo_cons]
    cases h : st.is_train <;> simp [iterationCall_fst, h, ih]

theorem loopGo_sched (st : TState) (dl : List Batch) (nm : String) :
    (Trainer.loopGo st dl nm).1.sched = st.sched := by
  induction dl generalizing st with
  | nil => rfl
  | cons d rest ih =>
    rw [loopGo_cons]
    cases h : st.is_train <;> simp [iterationCall_fst, h, ih]

theorem loopGo_start_epoch (st : TState) (dl : List Batch) (nm : String) :
    (Trainer.loopGo st dl nm).1.start_epoch = st.start_epoch := by
  induction dl generalizing st with
  | nil => rfl
  | cons d rest ih =>
    rw [loopGo_cons]
    cases h : st.is_train <;> simp [iterationCall_fst, h, ih]

theorem loop_fst (st : TState) (dl : List Batch) (nm : String) :
    (Trainer.loop st dl nm).1 = (Trainer.loopGo st dl nm).1 := rfl

theorem train_step (st : TState) (dl : List Batch) :
    (Trainer.train st dl).1.step = st.step + dl.length := by
  have h := loopGo_step { st with is_train := true, modelMode := true } dl TRAIN
  simp only [Trainer.train, loop_fst]
  cases hs : (Trainer.loopGo { st with is_train := true, modelMode := true } dl TRAIN).1.sched <;>
    simp_all

theorem train_epoch (st : TState) (dl : List Batch) :
    (Trainer.train st dl).1.epoch = st.epoch + 1 := by
  have h := loopGo_epoch { st with is_train := true, modelMode := true } dl TRAIN
  simp only [Trainer.train, loop_fst]
  cases hs : (Trainer.loopGo { st with is_train := true, modelMode := true } dl TRAIN).1.sched <;>
    simp_all

theorem train_start_epoch (st : TState) (dl : List Batch) :
    (Trainer.train st dl).1.start_epoch = st.start_epoch := by
  have h := loopGo_start_epoch { st with is_train := true, modelMode := true } dl TRAIN
  simp only [Trainer.train, loop_fst]
  cases hs : (Trainer.loopGo { st with is_train := true, modelMode := true } dl TRAIN).1.sched <;>
    simp_all

theorem test_fst (st : TState) (dl : List Batch) (nm : String) :
    (Trainer.test st dl nm).1 =
      (Trainer.loopGo { st with is_train := false, modelMode := false } dl nm).1 := rfl

theorem test_step (st : TState) (dl : List Batch) (nm : String) :
    (Trainer.test st dl nm).1.step = st.step := by
  rw [test_fst, loopGo_step]
  simp

theorem test_epoch (st : TState) (dl : List Batch) (nm : String) :
    (Trainer.test st dl nm).1.epoch = st.epoch := by
  rw [test_fst, loopGo_epoch]

theorem test_start_epoch (st : TState) (dl : List Batch) (nm : String) :
    (Trainer.test st dl nm).1.start_epoch = st.start_epoch := by
  rw [test_fst, loopGo_start_epoch]

/-- C1: for every data source of `n` batches, `train()` increments the step
counter by exactly `n` (once per batch) and the epoch counter by exactly 1,
while `test()` leaves both the step counter and the epoch counter
unchanged. -/
theorem C1_train_test_counters (st : TState) (dl : List Batch) (nm : String) :
    (Trainer.train st dl).1.step = st.step + dl.length ∧
    (Trainer.train st dl).1.epoch = st.epoch + 1 ∧
    (Trainer.test st dl nm).1.step = st.step ∧
    (Trainer.test st dl nm).1.epoch = st.epoch :=
  ⟨train_step st dl, train_epoch st dl, test_step st dl nm, test_epoch st dl nm⟩

/-- C3: `SupervisedTrainer.iteration` returns the pair (loss, output) of the
configured loss function and the model forward in both modes, and issues the
engine operations zero_grad, backward(loss), optimizer step — exactly once
each and in that order — precisely when the trainer is in training mode. -/
theorem C3_supervised_iteration (f : Nat → Tensor → Tensor)
    (l : Tensor → Tensor → Tensor) (v : Nat) (b : Bool) (d : Batch) :
    (SupervisedTrainer.iteration f l v b d).loss = l (f v d.1) d.2 ∧
    (SupervisedTrainer.iteration f l v b d).output = f v d.1 ∧
    (SupervisedTrainer.iteration f l v b d).engineOps =
      (if b = true then
        [EngineOp.zeroGrad, EngineOp.backward (l (f v d.1) d.2).item, EngineOp.optStep]
      else []) :=
  ⟨iteration_loss f l v b d, iteration_output f l v b d, iteration_engineOps f l v b d⟩

/-! Trace lemmas: the events the loops can emit, and the shape of `run`. -/

theorem iterationCall_events (st : TState) (d : Batch) (nm : String) :
    ∀ e ∈ (Trainer.iterationCall st d nm).2, isLoopEvent e = true := by
  intro e he
  simp only [Trainer.iterationCall, List.mem_cons, List.mem_append,
    List.mem_map, List.not_mem_nil, or_false] at he
  rcases he with h | ⟨op, hop, h⟩ | h
  · subst h; rfl
  · subst h; rfl
  · subst h; rfl

theorem loopGo_events (st : TState) (dl : List Batch) (nm : String) :
    ∀ e ∈ (Trainer.loopGo st dl nm).2, isLoopEvent e = true := by
  induction dl generalizing st with
  | nil => intro e he; cases he
  | cons d rest ih =>
    intro e he
    rw [loopGo_cons] at he
    rcases List.mem_append.mp he with h | h
    · exact iterationCall_events st d nm e h
    · exact ih _ e h

theorem loop_events (st : TState) (dl : List Batch) (nm : String) :
    ∀ e ∈ (Trainer.loop st dl nm).2, isLoopEvent e = true := by
  intro e he
  simp only [Trainer.loop, List.mem_cons, List.mem_append,
    List.not_mem_nil, or_false] at he
  rcases he with h | h | h
  · subst h; rfl
  · exact loopGo_events st dl nm e h
  · subst h; rfl

theorem train_snd (st : TState) (dl : List Batch) :
    (Trainer.train st dl).2 =
      (Trainer.loop { st with is_train := true, modelMode := true } dl TRAIN).2 := rfl

theorem test_snd (st : TState) (dl : List Batch) (nm : String) :
    (Trainer.test st dl nm).2 =
      (Trainer.loop { st with is_train := false, modelMode := false } dl nm).2 := rfl

theorem train_events (st : TState) (dl : List Batch) :
    ∀ e ∈ (Trainer.train st dl).2, isLoopEvent e = true := by
  rw [train_snd]
  exact loop_events _ dl TRAIN

theorem test_events (st : TState) (dl : List Batch) (nm : String) :
    ∀ e ∈ (Trainer.test st dl nm).2, isLoopEvent e = true := by
  rw [test_snd]
  exact loop_events _ dl nm

theorem epochsLoop_events (st : TState) (epochs : Nat) (tr te : List Batch) :
    ∀ e ∈ (Trainer.epochsLoop st epochs tr te).2, isLoopEvent e = true := by
  induction epochs generalizing st with
  | zero => intro e he; cases he
  | succ n ih =>
    intro e he
    simp only [Trainer.epochsLoop, List.mem_append] at he
    rcases he with (h | h) | h
    · exact train_events st tr e h
    · exact test_events _ te TEST e h
    · exact ih _ e h

theorem loopEvent_not_close {e : Event} (h : isLoopEvent e = true) :
    isClose e = false := by
  cases e <;> simp_all [isLoopEvent, isClose]

theorem loopEvent_not_notice {e : Event} (h : isLoopEvent e = true) :
    isNotice e = false := by
  cases e <;> simp_all [isLoopEvent, isNotice]

theorem loopEvent_not_endAll {e : Event} (h : isLoopEvent e = true) :
    isEndAll e = false := by
  cases e <;> simp_all [isLoopEvent, isEndAll]

theorem countP_zero_of_events {l : List Event} {p : Event → Bool}
    (hp : ∀ e ∈ l, p e = false) : l.countP p = 0 :=
  List.countP_eq_zero.mpr fun e he => by simp [hp e he]

theorem bodyEvents_not_close (st : TState) (epochs : Nat) (tr te : List Batch) :
    ∀ e ∈ Trainer.bodyEvents st epochs tr te, isClose e = false := by
  intro e he
  rcases List.mem_append.mp he with h | h
  · exact loopEvent_not_close (epochsLoop_events st epochs tr te e h)
  · simp only [Trainer.exitCall, List.mem_singleton] at h
    subst h; rfl

theorem bodyEvents_not_notice (st : TState) (epochs : Nat) (tr te : List Batch) :
    ∀ e ∈ Trainer.bodyEvents st epochs tr te, isNotice e = false := by
  intro e he
  rcases List.mem_append.mp he with h | h
  · exact loopEvent_not_notice (epochsLoop_events st epochs tr te e h)
  · simp only [Trainer.exitCall, List.mem_singleton] at h
    subst h; rfl

theorem run_completed_eq (st : TState) (epochs : Nat) (tr te : List Batch) :
    Trainer.run st epochs tr te RunOutcome.completed =
      Trainer.bodyEvents st epochs tr te ++ [Event.close] := rfl

theorem run_interrupted_eq (st : TState) (epochs : Nat) (tr te : List Batch)
    (k : Nat) :
    Trainer.run st epochs tr te (RunOutcome.interrupted k) =
      (Trainer.bodyEvents st epochs tr te).take k ++
        [Event.notice, Event.close] := rfl

/-- C2: every execution of `run`, whether it completes normally or is cut by
a KeyboardInterrupt after any prefix of its events, closes the callback
dispatcher exactly once; on cancellation a notice is emitted (and `run`
still returns a plain trace: nothing is re-raised), while no notice appears
on normal completion. -/
theorem C2_run_close_once (st : TState) (epochs : Nat) (tr te : List Batch)
    (k : Nat) :
    closeCount (Trainer.run st epochs tr te RunOutcome.completed) = 1 ∧
    closeCount (Trainer.run st epochs tr te (RunOutcome.interrupted k)) = 1 ∧
    Event.notice ∈ Trainer.run st epochs tr te (RunOutcome.interrupted k) ∧
    Event.notice ∉ Trainer.run st epochs tr te RunOutcome.completed := by
  have hc : (Trainer.bodyEvents st epochs tr te).countP isClose = 0 :=
    countP_zero_of_events (bodyEvents_not_close st epochs tr te)
  have hctake : ((Trainer.bodyEvents st epochs tr te).take k).countP isClose = 0 :=
    countP_zero_of_events fun e he =>
      bodyEvents_not_close st epochs tr te e (List.mem_of_mem_take he)
  refine ⟨?_, ?_, ?_, ?_⟩
  · rw [run_completed_eq, closeCount, List.countP_append, hc]
    rfl
  · rw [run_interrupted_eq, closeCount, List.countP_append, hctake]
    rfl
  · rw [run_interrupted_eq]
    simp
  · rw [run_completed_eq]
    intro hmem
    rcases List.mem_append.mp hmem with h | h
    · exact absurd (bodyEvents_not_notice st epochs tr te _ h) (by simp [isNotice])
    · simp only [List.mem_singleton] at h
      cases h

/-- C9: the end-of-run (`end_all`) event is dispatched exactly once when
`run` completes all its epochs normally, and never when `run` is aborted by
a KeyboardInterrupt that strikes during the epoch loop — even though the
dispatcher is still closed on that path. -/
theorem C9_end_all_only_on_completion (st : TState) (epochs : Nat)
    (tr te : List Batch) :
    endAllCount (Trainer.run st epochs tr te RunOutcome.completed) = 1 ∧
    ∀ k, k ≤ (Trainer.epochsLoop st epochs tr te).2.length →
      endAllCount (Trainer.run st epochs tr te (RunOutcome.interrupted k)) = 0 := by
  have hloop : (Trainer.epochsLoop st epochs tr te).2.countP isEndAll = 0 :=
    countP_zero_of_events fun e he =>
      loopEvent_not_endAll (epochsLoop_events st epochs tr te e he)
  constructor
  · rw [run_completed_eq, endAllCount, Trainer.bodyEvents, List.countP_append,
      List.countP_append, hloop]
    rfl
  · intro k hk
    rw [run_interrupted_eq, endAllCount, List.countP_append,
      Trainer.bodyEvents, List.take_append_of_le_length hk]
    have htake : ((Trainer.epochsLoop st epochs tr te).2.take k).countP isEndAll = 0 :=
      countP_zero_of_events fun e he =>
        loopEvent_not_endAll
          (epochsLoop_events st epochs tr te e (List.mem_of_mem_take he))
    rw [htake]
    rfl

/-! Lemmas locating the start-of-epoch dispatches of a call sequence, for the
registered-extras persistence claim. -/

theorem startEpoch_not_mem_iterationCall (st : TState) (d : Batch)
    (nm : String) (c : Ctx) :
    Event.startEpoch c ∉ (Trainer.iterationCall st d nm).2 := by
  intro hmem
  simp only [Trainer.iterationCall, List.mem_cons, List.mem_append,
    List.mem_map, List.not_mem_nil, or_false] at hmem
  rcases hmem with h | ⟨op, hop, h⟩ | h
  · cases h
  · cases h
  · cases h

theorem startEpoch_not_mem_loopGo (st : TState) (dl : List Batch)
    (nm : String) (c : Ctx) :
    Event.startEpoch c ∉ (Trainer.loopGo st dl nm).2 := by
  induction dl generalizing st with
  | nil => intro h; cases h
  | cons d rest ih =>
    intro hmem
    rw [loopGo_cons] at hmem
    rcases List.mem_append.mp hmem with h | h
    · exact startEpoch_not_mem_iterationCall st d nm c h
    · exact ih _ h

theorem mem_startEpoch_loop {st : TState} {dl : List Batch} {nm : String}
    {c : Ctx} (hmem : Event.startEpoch c ∈ (Trainer.loop st dl nm).2) :
    c = startEpochCtx st nm := by
  simp only [Trainer.loop, List.mem_cons, List.mem_append,
    List.not_mem_nil, or_false] at hmem
  rcases hmem with h | h | h
  · exact Event.startEpoch.inj h
  · exact absurd h (startEpoch_not_mem_loopGo st dl nm c)
  · cases h

theorem mem_startEpoch_train {st : TState} {dl : List Batch} {c : Ctx}
    (hmem : Event.startEpoch c ∈ (Trainer.train st dl).2) :
    c = startEpochCtx { st with is_train := true, modelMode := true } TRAIN := by
  rw [train_snd] at hmem
  exact mem_startEpoch_loop hmem

theorem mem_startEpoch_test {st : TState} {dl : List Batch} {nm : String}
    {c : Ctx} (hmem : Event.startEpoch c ∈ (Trainer.test st dl nm).2) :
    c = startEpochCtx { st with is_train := false, modelMode := false } nm := by
  rw [test_snd] at hmem
  exact mem_startEpoch_loop hmem

theorem applyOps_start_epoch (st : TState) (ops : List Op) :
    (Trainer.applyOps st ops).1.start_epoch = st.start_epoch := by
  induction ops generalizing st with
  | nil => rfl
  | cons op rest ih =>
    cases op with
    | trainOp dl =>
      show (Trainer.applyOps (Trainer.train st dl).1 rest).1.start_epoch = _
      rw [ih, train_start_epoch]
    | testOp dl nm =>
      show (Trainer.applyOps (Trainer.test st dl nm).1 rest).1.start_epoch = _
      rw [ih, test_start_epoch]

theorem mem_startEpoch_applyOps {st : TState} {ops : List Op} {c : Ctx}
    (hmem : Event.startEpoch c ∈ (Trainer.applyOps st ops).2) :
    ∃ st' nm', st'.start_epoch = st.start_epoch ∧ c = startEpochCtx st' nm' := by
  induction ops generalizing st with
  | nil => cases hmem
  | cons op rest ih =>
    cases op with
    | trainOp dl =>
      have hsplit : Event.startEpoch c ∈ (Trainer.train st dl).2 ∨
          Event.startEpoch c ∈ (Trainer.applyOps (Trainer.train st dl).1 rest).2 :=
        List.mem_append.mp hmem
      rcases hsplit with h | h
      · exact ⟨{ st with is_train := true, modelMode := true }, TRAIN, rfl,
          mem_startEpoch_train h⟩
      · obtain ⟨st', nm', hpres, hc⟩ := ih h
        exact ⟨st', nm', by rw [hpres, train_start_epoch], hc⟩
    | testOp dl nm =>
      have hsplit : Event.startEpoch c ∈ (Trainer.test st dl nm).2 ∨
          Event.startEpoch c ∈ (Trainer.applyOps (Trainer.test st dl nm).1 rest).2 :=
        List.mem_append.mp hmem
      rcases hsplit with h | h
      · exact ⟨{ st with is_train := false, modelMode := false }, nm, rfl,
          mem_startEpoch_test h⟩
      · obtain ⟨st', nm', hpres, hc⟩ := ih h
        exact ⟨st', nm', by rw [hpres, test_start_epoch], hc⟩

/-- C7: after `register_start_epoch name v`, every start-of-epoch context
dispatched by any subsequent sequence of `train()`/`test()` calls contains
the entry `name -> v`; after a later registration under the same name with
value `w`, those contexts contain `name -> w` instead, and the registry
itself holds `w` (registration overwrites, it never accumulates). -/
theorem C7_register_start_epoch_persists (st : TState) (name : String)
    (v w : Val) :
    (∀ ops c, Event.startEpoch c ∈
        (Trainer.applyOps (Trainer.register_start_epoch st name v) ops).2 →
        ctxGet c name = some v) ∧
    (∀ ops c, Event.startEpoch c ∈
        (Trainer.applyOps
          (Trainer.register_start_epoch
            (Trainer.register_start_epoch st name v) name w) ops).2 →
        ctxGet c name = some w) ∧
    ctxGet (Trainer.register_start_epoch
      (Trainer.register_start_epoch st name v) name w).start_epoch name = some w := by
  refine ⟨?_, ?_, ctxGet_set_self _ name w⟩
  · intro ops c hmem
    obtain ⟨st', nm', hpres, hc⟩ := mem_startEpoch_applyOps hmem
    subst hc
    rw [startEpochCtx, hpres]
    exact ctxGet_update_set _ _ name v
  · intro ops c hmem
    obtain ⟨st', nm', hpres, hc⟩ := mem_startEpoch_applyOps hmem
    subst hc
    rw [startEpochCtx, hpres]
    exact ctxGet_update_set _ _ name w

/-- C10: in every dispatched context the registered extras are merged after
the fixed semantic keys, so a registered extra under any name — including a
name equal to a fixed tag such as MODEL, STEP, NAME, LOSS or TRAINER — is
the value the callbacks see under that name. -/
theorem C10_extras_override (st : TState) (name : String) (v : Val)
    (nm : String) (d : Batch) (len : Nat) :
    ctxGet (startIterationCtx (Trainer.register_start_iteration st name v) nm) name = some v ∧
    ctxGet (endIterationCtx (Trainer.register_end_iteration st name v) d nm) name = some v ∧
    ctxGet (startEpochCtx (Trainer.register_start_epoch st name v) nm) name = some v ∧
    ctxGet (endEpochCtx (Trainer.register_end_epoch st name v) len nm) name = some v ∧
    ctxGet (endAllCtx (Trainer.register_end_all st name v)) name = some v :=
  ⟨ctxGet_update_set _ _ name v, ctxGet_update_set _ _ name v,
   ctxGet_update_set _ _ name v, ctxGet_update_set _ _ name v,
   ctxGet_update_set _ _ name v⟩

/-! The loss value reported to the end-of-iteration callbacks. -/

theorem endIterationCtx_loss (st : TState) (d : Batch) (nm : String)
    (h : ctxGet st.end_iteration LOSS = none) :
    ctxGet (endIterationCtx st d nm) LOSS =
      some (Val.i ((st.loss_f (st.fwd st.version d.1) d.2).data.item)) := by
  simp only [endIterationCtx]
  rw [ctxGet_update_of_none h,
    ctxGet_cons_ne (show OUTPUT ≠ LOSS by decide),
    ctxGet_cons_ne (show DATA ≠ LOSS by decide),
    ctxGet_cons_ne (show MODEL ≠ LOSS by decide),
    ctxGet_cons_self, iteration_loss]

/-- C6: when no extra has been registered under the loss tag, the loss value
placed in the end-of-iteration callback context equals
`loss.data.item()` of the loss object the configured loss function produced
for that batch, the context is the one actually dispatched by the iteration
wrapper, and in training mode the backward engine operation receives that
same scalar. -/
theorem C6_loss_roundtrip (st : TState) (d : Batch) (nm : String)
    (h : ctxGet st.end_iteration LOSS = none) :
    ctxGet (endIterationCtx st d nm) LOSS =
      some (Val.i ((st.loss_f (st.fwd st.version d.1) d.2).data.item)) ∧
    Event.endIteration (endIterationCtx st d nm) ∈
      (Trainer.iterationCall st d nm).2 ∧
    Event.engine (EngineOp.backward
        ((st.loss_f (st.fwd st.version d.1) d.2).item)) ∈
      (Trainer.iterationCall { st with is_train := true } d nm).2 := by
  refine ⟨endIterationCtx_loss st d nm h, ?_, ?_⟩
  · simp [Trainer.iterationCall]
  · simp [Trainer.iterationCall, iteration_engineOps]

/-! Construction-time claims. -/

/-- C4: each misconfiguration the constructor checks — a keyed optimizer
with a non-keyed model, a keyed scheduler with a non-keyed optimizer, any
keyed-model configuration (the container construction of line 40 rejects it
before the per-key checks can run), a keyword argument colliding with an
existing attribute, and a keyed model passed to `SupervisedTrainer` — makes
construction fail immediately with an error; in particular every keyed
configuration with a mismatched optimizer key set fails rather than being
silently accepted. -/
theorem C4_construction_fails :
    (∀ m od l cb s vb cu kw, ∃ msg,
      TrainerBase.init (ModelArg.single m) (OptArg.keyed od) l cb s vb cu kw =
        .error (PyError.typeError msg)) ∧
    (∀ m o l cb sd vb cu kw, ∃ msg,
      TrainerBase.init (ModelArg.single m) (OptArg.single o) l cb
          (SchedArg.keyed sd) vb cu kw =
        .error (PyError.typeError msg)) ∧
    (∀ md oa l cb s vb cu kw, ∃ msg,
      TrainerBase.init (ModelArg.keyed md) oa l cb s vb cu kw =
        .error (PyError.typeError msg)) ∧
    (∀ m o l cb vb cu k x kw, (baseAttrs true true).contains k = true →
      ∃ msg,
        TrainerBase.init (ModelArg.single m) (OptArg.single o) l cb
            SchedArg.none vb cu ((k, x) :: kw) =
          .error (PyError.attributeError msg)) ∧
    (∀ md oa l cb s vb cu kw, ∃ msg,
      SupervisedTrainer.init (ModelArg.keyed md) oa l cb s vb cu kw =
        .error (PyError.typeError msg)) ∧
    (∀ md od l cb s vb cu kw,
      od.map Prod.fst ≠ md.map Prod.fst →
      ∃ e, TrainerBase.init (ModelArg.keyed md) (OptArg.keyed od) l cb s vb cu kw =
        .error e) := by
  refine ⟨?_, ?_, ?_, ?_, ?_, ?_⟩
  · intro m od l cb s vb cu kw
    exact ⟨_, rfl⟩
  · intro m o l cb sd vb cu kw
    exact ⟨_, rfl⟩
  · intro md oa l cb s vb cu kw
    exact ⟨_, rfl⟩
  · intro m o l cb vb cu k x kw h
    have hmem : k ∈ baseAttrs true true := by simpa using h
    refine ⟨"TrainerBase already has " ++ k, ?_⟩
    simp [TrainerBase.init, initModelStep, initOptStep, initSchedStep,
      processKwargs, hmem]
  · intro md oa l cb s vb cu kw
    exact ⟨_, rfl⟩
  · intro md od l cb s vb cu kw _
    exact ⟨_, rfl⟩

/-- Concrete instantiation of each configuration-error case of the
construction theorem. -/
theorem C4_witness :
    (∃ msg, TrainerBase.init (ModelArg.single sampleModel)
      (OptArg.keyed [("a", sampleOpt)]) 0 0 SchedArg.none true false [] =
        .error (PyError.typeError msg)) ∧
    (∃ msg, TrainerBase.init (ModelArg.single sampleModel)
      (OptArg.single sampleOpt) 0 0 (SchedArg.keyed [("a", sampleSched)])
      true false [] = .error (PyError.typeError msg)) ∧
    (∃ msg, TrainerBase.init (ModelArg.keyed [("a", sampleModel)])
      (OptArg.keyed [("b", sampleOpt)]) 0 0 SchedArg.none true false [] =
        .error (PyError.typeError msg)) ∧
    (∃ msg, TrainerBase.init (ModelArg.single sampleModel)
      (OptArg.single sampleOpt) 0 0 SchedArg.none true false [("model", 7)] =
        .error (PyError.attributeError msg)) ∧
    (∃ msg, SupervisedTrainer.init (ModelArg.keyed [("a", sampleModel)])
      (OptArg.single sampleOpt) 0 0 SchedArg.none true false [] =
        .error (PyError.typeError msg)) ∧
    (∃ e, TrainerBase.init (ModelArg.keyed [("a", sampleModel)])
      (OptArg.keyed [("b", sampleOpt)]) 0 0 SchedArg.none true false [] =
        .error e) :=
  ⟨C4_construction_fails.1 sampleModel [("a", sampleOpt)] 0 0 SchedArg.none
      true false [],
    C4_construction_fails.2.1 sampleModel sampleOpt 0 0 [("a", sampleSched)]
      true false [],
    C4_construction_fails.2.2.1 [("a", sampleModel)]
      (OptArg.keyed [("b", sampleOpt)]) 0 0 SchedArg.none true false [],
    C4_construction_fails.2.2.2.1 sampleModel sampleOpt 0 0 true false
      "model" 7 [] (by decide),
    C4_construction_fails.2.2.2.2.1 [("a", sampleModel)]
      (OptArg.single sampleOpt) 0 0 SchedArg.none true false [],
    C4_construction_fails.2.2.2.2.2 [("a", sampleModel)] [("b", sampleOpt)]
      0 0 SchedArg.none true false [] (by decide)⟩

/-- C5 (counterexample): invoking the abstract `iteration` body directly
does not fail with a NotImplementedError — it returns None and raises
nothing. -/
theorem C5_counterexample :
    TrainerBase.iterationBody sampleBatch = .ok none ∧
    isNotImplementedFailure (TrainerBase.iterationBody sampleBatch) = false :=
  ⟨rfl, rfl⟩

/-- C5 (amended): the abstract `iteration` body returns None and raises no
error when invoked directly; what fails is instantiating the base trainer
without overriding `iteration`, and the abstract-class machinery rejects
that with a TypeError, not a NotImplementedError. -/
theorem C5_abstract_iteration (d : Batch) :
    TrainerBase.iterationBody d = .ok none ∧
    isNotImplementedFailure (TrainerBase.iterationBody d) = false ∧
    abcInstantiateCheck false = .error (PyError.typeError
      "Cannot instantiate abstract class TrainerBase with abstract method iteration") ∧
    abcInstantiateCheck true = .ok () :=
  ⟨rfl, rfl, rfl, rfl⟩

/-- C8: an optimizer argument that is neither an `Optimizer` adapter nor a
dict matches no branch of the optimizer setup: with otherwise benign
arguments (single model, no scheduler, no extra keyword arguments) the
constructor succeeds and the trainer's optimizer attribute is never set —
the misconfiguration is silently accepted at construction time. -/
theorem C8_junk_optimizer_accepted (m : ModelObj) (l cb : Nat) (vb cu : Bool) :
    ∃ t, TrainerBase.init (ModelArg.single m) OptArg.other l cb SchedArg.none
        vb cu [] = .ok t ∧ t.optimizer = none :=
  ⟨_, rfl, rfl⟩

/-- Concrete instantiation of the loss round-trip theorem on a fresh trainer
state and a sample batch. -/
theorem C6_witness :
    ctxGet sampleState.end_iteration LOSS = none ∧
    (ctxGet (endIterationCtx sampleState sampleBatch TEST) LOSS =
      some (Val.i ((sampleState.loss_f
        (sampleState.fwd sampleState.version sampleBatch.1)
        sampleBatch.2).data.item)) ∧
     Event.endIteration (endIterationCtx sampleState sampleBatch TEST) ∈
      (Trainer.iterationCall sampleState sampleBatch TEST).2 ∧
     Event.engine (EngineOp.backward ((sampleState.loss_f
        (sampleState.fwd sampleState.version sampleBatch.1)
        sampleBatch.2).item)) ∈
      (Trainer.iterationCall { sampleState with is_train := true }
        sampleBatch TEST).2) :=
  ⟨rfl, C6_loss_roundtrip sampleState sampleBatch TEST rfl⟩

/-- Concrete instantiation of the registered-extras persistence theorem: a
start-of-epoch context dispatched by a `train()` call after registering
`tag -> "X"` contains that entry. -/
theorem C7_witness :
    Event.startEpoch (startEpochCtx
        { Trainer.register_start_epoch sampleState "tag" (Val.s "X") with
          is_train := true, modelMode := true } TRAIN) ∈
      (Trainer.applyOps
        (Trainer.register_start_epoch sampleState "tag" (Val.s "X"))
        [Op.trainOp []]).2 ∧
    ctxGet (startEpochCtx
        { Trainer.register_start_epoch sampleState "tag" (Val.s "X") with
          is_train := true, modelMode := true } TRAIN) "tag" =
      some (Val.s "X") := by
  have hmem : Event.startEpoch (startEpochCtx
      { Trainer.register_start_epoch sampleState "tag" (Val.s "X") with
        is_train := true, modelMode := true } TRAIN) ∈
      (Trainer.applyOps
        (Trainer.register_start_epoch sampleState "tag" (Val.s "X"))
        [Op.trainOp []]).2 := by decide
  exact ⟨hmem,
    (C7_register_start_epoch_persists sampleState "tag" (Val.s "X")
      (Val.s "Y")).1 [Op.trainOp []] _ hmem⟩

/-- Concrete instantiation of the end-of-run theorem: a cancellation that
strikes two events into a one-epoch run (mid-epoch) leaves the trace with no
end-of-run dispatch. -/
theorem C9_witness :
    2 ≤ (Trainer.epochsLoop sampleState 1 [sampleBatch] []).2.length ∧
    endAllCount (Trainer.run sampleState 1 [sampleBatch] []
      (RunOutcome.interrupted 2)) = 0 :=
  ⟨by decide,
    (C9_end_all_only_on_completion sampleState 1 [sampleBatch] []).2 2
      (by decide)⟩

end Homura
